import Mathlib

/-!
Verification of the svgg embedding/extraction codec (veridock/container).

The definitions below are shallow embeddings of the Python source:
  * `src/svgg/core/file_handler.py`   (base64 encode/decode core)
  * `src/svgg/extractors/file_extractor.py`
  * `src/svgg/core/svg_generator.py`  (textual script insertion)
  * `src/svgg/validators/svg_validator.py`
  * `src/svgg/listers/svg_lister.py`
  * `src/svgg/core/metadata_manager.py`
Bytes are modelled as `Nat` values below 256, Python `str` as Lean `String`
(operating on the underlying `List Char`), Python dicts as association lists
with first-match lookup and in-place value replacement, and exceptions as
`Except`/`Option` results.
-/

deriving instance DecidableEq for Except

/-- Concatenation of the images of `f` over a list, in order (Python loops
that append several items per iteration). -/
def cmap (f : α → List β) : List α → List β
  | [] => []
  | a :: as => f a ++ cmap f as

/-- First-match association-list lookup: Python `d[k]` / `k in d` on a dict
whose insertion order is the list order. -/
def alookup (k : String) : List (String × α) → Option α
  | [] => none
  | (k₀, v₀) :: rest => if k = k₀ then some v₀ else alookup k rest

/-- Python `d.get(k, default)`. -/
def agetD (k : String) (d : List (String × α)) (dflt : α) : α :=
  (alookup k d).getD dflt

/-- ASCII whitespace recognised by Python `str.strip()` (the repository only
manipulates ASCII document text). -/
def pyIsSpace (c : Char) : Bool :=
  c = ' ' || c = '\t' || c = '\n' || c = '\r' || c = '\x0b' || c = '\x0c'

/-- Python `str.strip()` on a character list. -/
def pyStripCL (l : List Char) : List Char :=
  ((l.dropWhile pyIsSpace).reverse.dropWhile pyIsSpace).reverse

/-- Python `str.strip()`. -/
def pyStrip (s : String) : String := ⟨pyStripCL s.data⟩

/-- Python substring containment `pat in l`. -/
def containsCL (l pat : List Char) : Bool :=
  match l with
  | [] => pat.isEmpty
  | _ :: t => pat.isPrefixOf l || containsCL t pat

/-- Python `s.split(sep, 1)` for a one-character separator: `some (before,
after)` when the separator occurs, `none` when the split yields one part. -/
def splitFirst (sep : Char) : List Char → Option (List Char × List Char)
  | [] => none
  | c :: rest =>
    if c = sep then some ([], rest)
    else (splitFirst sep rest).map (fun p => (c :: p.1, p.2))

/-- Python `tag.split(sep)[-1] if sep in tag else tag`: the suffix after the
last occurrence of `sep`. -/
def afterLast (sep : Char) (l : List Char) : List Char :=
  (l.reverse.takeWhile (fun c => c ≠ sep)).reverse

/-! ## Base64 codec

`FileHandler.encode_file_to_base64` encodes with `base64.b64encode`;
`FileHandler.decode_base64_to_file` and both extractors decode with
`base64.b64decode(s)` (CPython `binascii.a2b_base64` in non-strict mode:
characters outside the alphabet are discarded, `=` finishes a quad early,
and a trailing partial quad is an error). -/

/-- The standard base64 alphabet. -/
def b64alphabet : List Char :=
  "ABCDEFGHIJKLMNOPQRSTUVWXYZabcdefghijklmnopqrstuvwxyz0123456789+/".data

/-- Character of a 6-bit value. -/
def b64chr (n : Nat) : Char := b64alphabet.getD n 'A'

/-- Position of a character in `l`, starting at index `i`. -/
def b64valAux : List Char → Nat → Char → Option Nat
  | [], _, _ => none
  | a :: as, i, c => if c = a then some i else b64valAux as (i + 1) c

/-- 6-bit value of an alphabet character (`none` outside the alphabet). -/
def b64val (c : Char) : Option Nat := b64valAux b64alphabet 0 c

/-- `base64.b64encode`: groups of three bytes become four alphabet
characters; a final group of one or two bytes is padded with `=`. -/
def b64encode : List Nat → List Char
  | a :: b :: c :: rest =>
    b64chr (a / 4) :: b64chr (a % 4 * 16 + b / 16) ::
      b64chr (b % 16 * 4 + c / 64) :: b64chr (c % 64) :: b64encode rest
  | [a, b] => [b64chr (a / 4), b64chr (a % 4 * 16 + b / 16), b64chr (b % 16 * 4), '=']
  | [a] => [b64chr (a / 4), b64chr (a % 4 * 16), '=', '=']
  | [] => []

/-- The non-strict `binascii.a2b_base64` loop. State: `quadPos` is the number
of data characters seen in the current quad, `leftchar` the pending bits,
`pads` the count of `=` seen since the last data character. A `=` when two
or three data characters are pending and enough pads have accumulated ends
decoding; other unusable characters are skipped. A trailing partial quad is
an error (distinguishing one leftover data character from padding). -/
def a2bLoop : List Char → Nat → Nat → Nat → Except String (List Nat)
  | [], quadPos, _, _ =>
    if quadPos = 0 then Except.ok []
    else if quadPos = 1 then
      Except.error "Invalid base64-encoded string: number of data characters cannot be 1 more than a multiple of 4"
    else Except.error "Incorrect padding"
  | c :: rest, quadPos, leftchar, pads =>
    if c = '=' then
      if 2 ≤ quadPos then
        if 4 ≤ quadPos + pads + 1 then Except.ok []
        else a2bLoop rest quadPos leftchar (pads + 1)
      else a2bLoop rest quadPos leftchar pads
    else
      match b64val c with
      | none => a2bLoop rest quadPos leftchar pads
      | some v =>
        match quadPos with
        | 0 => a2bLoop rest 1 v 0
        | 1 => Except.map (fun t => (leftchar * 4 + v / 16) :: t) (a2bLoop rest 2 (v % 16) 0)
        | 2 => Except.map (fun t => (leftchar * 16 + v / 4) :: t) (a2bLoop rest 3 (v % 4) 0)
        | _ => Except.map (fun t => (leftchar * 64 + v) :: t) (a2bLoop rest 0 0 0)

/-- `base64.b64decode` (default `validate=False`). -/
def b64decode (s : List Char) : Except String (List Nat) := a2bLoop s 0 0 0

/-- `base64.b64decode` on a Lean string. -/
def b64decodeStr (s : String) : Except String (List Nat) := b64decode s.data

/-- Alphabet characters decode back to their index. -/
theorem b64val_b64chr : ∀ v, v < 64 → b64val (b64chr v) = some v := by decide

/-- Alphabet characters are never the padding character. -/
theorem b64chr_ne_pad : ∀ v, v < 64 → b64chr v ≠ '=' := by decide

theorem a2bLoop_step0 (c : Char) (v : Nat) (rest : List Char) (l p : Nat)
    (hpad : c ≠ '=') (hv : b64val c = some v) :
    a2bLoop (c :: rest) 0 l p = a2bLoop rest 1 v 0 := by
  simp [a2bLoop, hpad, hv]

theorem a2bLoop_step1 (c : Char) (v : Nat) (rest : List Char) (l p : Nat)
    (hpad : c ≠ '=') (hv : b64val c = some v) :
    a2bLoop (c :: rest) 1 l p =
      Except.map (fun t => (l * 4 + v / 16) :: t) (a2bLoop rest 2 (v % 16) 0) := by
  simp [a2bLoop, hpad, hv]

theorem a2bLoop_step2 (c : Char) (v : Nat) (rest : List Char) (l p : Nat)
    (hpad : c ≠ '=') (hv : b64val c = some v) :
    a2bLoop (c :: rest) 2 l p =
      Except.map (fun t => (l * 16 + v / 4) :: t) (a2bLoop rest 3 (v % 4) 0) := by
  simp [a2bLoop, hpad, hv]

theorem a2bLoop_step3 (c : Char) (v : Nat) (rest : List Char) (l p : Nat)
    (hpad : c ≠ '=') (hv : b64val c = some v) :
    a2bLoop (c :: rest) 3 l p =
      Except.map (fun t => (l * 64 + v) :: t) (a2bLoop rest 0 0 0) := by
  simp [a2bLoop, hpad, hv]

/-- Decoding inverts encoding, chunk by chunk. -/
theorem b64_roundtrip : ∀ bs : List Nat, (∀ x ∈ bs, x < 256) →
    b64decode (b64encode bs) = Except.ok bs
  | [], _ => by simp [b64encode, b64decode, a2bLoop]
  | [a], h => by
    have ha : a < 256 := h a (by simp)
    have h1 : a / 4 < 64 := by omega
    have h2 : a % 4 * 16 < 64 := by omega
    show a2bLoop [b64chr (a / 4), b64chr (a % 4 * 16), '=', '='] 0 0 0 = Except.ok [a]
    rw [a2bLoop_step0 _ _ _ _ _ (b64chr_ne_pad _ h1) (b64val_b64chr _ h1),
        a2bLoop_step1 _ _ _ _ _ (b64chr_ne_pad _ h2) (b64val_b64chr _ h2)]
    simp [a2bLoop, Except.map]
    omega
  | [a, b], h => by
    have ha : a < 256 := h a (by simp)
    have hb : b < 256 := h b (by simp)
    have h1 : a / 4 < 64 := by omega
    have h2 : a % 4 * 16 + b / 16 < 64 := by omega
    have h3 : b % 16 * 4 < 64 := by omega
    show a2bLoop [b64chr (a / 4), b64chr (a % 4 * 16 + b / 16), b64chr (b % 16 * 4), '='] 0 0 0 =
      Except.ok [a, b]
    rw [a2bLoop_step0 _ _ _ _ _ (b64chr_ne_pad _ h1) (b64val_b64chr _ h1),
        a2bLoop_step1 _ _ _ _ _ (b64chr_ne_pad _ h2) (b64val_b64chr _ h2),
        a2bLoop_step2 _ _ _ _ _ (b64chr_ne_pad _ h3) (b64val_b64chr _ h3)]
    simp [a2bLoop, Except.map]
    constructor
    · omega
    · omega
  | a :: b :: c :: rest, h => by
    have ha : a < 256 := h a (by simp)
    have hb : b < 256 := h b (by simp)
    have hc : c < 256 := h c (by simp)
    have h1 : a / 4 < 64 := by omega
    have h2 : a % 4 * 16 + b / 16 < 64 := by omega
    have h3 : b % 16 * 4 + c / 64 < 64 := by omega
    have h4 : c % 64 < 64 := by omega
    have ih := b64_roundtrip rest (fun x hx => h x (by simp [hx]))
    show a2bLoop (b64chr (a / 4) :: b64chr (a % 4 * 16 + b / 16) ::
      b64chr (b % 16 * 4 + c / 64) :: b64chr (c % 64) :: b64encode rest) 0 0 0 =
      Except.ok (a :: b :: c :: rest)
    rw [a2bLoop_step0 _ _ _ _ _ (b64chr_ne_pad _ h1) (b64val_b64chr _ h1),
        a2bLoop_step1 _ _ _ _ _ (b64chr_ne_pad _ h2) (b64val_b64chr _ h2),
        a2bLoop_step2 _ _ _ _ _ (b64chr_ne_pad _ h3) (b64val_b64chr _ h3),
        a2bLoop_step3 _ _ _ _ _ (b64chr_ne_pad _ h4) (b64val_b64chr _ h4)]
    rw [show a2bLoop (b64encode rest) 0 0 0 = Except.ok rest from ih]
    simp [Except.map]
    refine ⟨by omega, by omega, by omega⟩

/-- Characters the non-strict decoder can use: padding and alphabet
characters. Everything else is discarded. -/
def isB64Kept (c : Char) : Bool := c = '=' || (b64val c).isSome

/-- The decode loop ignores characters outside the base64 alphabet (other
than `=`): decoding a string equals decoding its kept characters. -/
theorem a2bLoop_filter : ∀ (cs : List Char) (q l p : Nat),
    a2bLoop (cs.filter isB64Kept) q l p = a2bLoop cs q l p := by
  intro cs
  induction cs with
  | nil => intro q l p; rfl
  | cons c rest ih =>
    intro q l p
    by_cases hpad : c = '='
    · subst hpad
      rw [show ('=' :: rest).filter isB64Kept = '=' :: rest.filter isB64Kept from by
        simp [List.filter_cons, isB64Kept]]
      by_cases h2 : 2 ≤ q
      · by_cases h4 : 4 ≤ q + p + 1
        · simp [a2bLoop, h2, h4]
        · simp [a2bLoop, h2, h4, ih]
      · simp [a2bLoop, h2, ih]
    · cases hv : b64val c with
      | none =>
        rw [show (c :: rest).filter isB64Kept = rest.filter isB64Kept from by
          simp [List.filter_cons, isB64Kept, hpad, hv]]
        rw [ih]
        simp [a2bLoop, hpad, hv]
      | some v =>
        rw [show (c :: rest).filter isB64Kept = c :: rest.filter isB64Kept from by
          simp [List.filter_cons, isB64Kept, hv]]
        match q with
        | 0 => simp only [a2bLoop, if_neg hpad, hv]; exact ih 1 v 0
        | 1 => simp only [a2bLoop, if_neg hpad, hv]; rw [ih]
        | 2 => simp only [a2bLoop, if_neg hpad, hv]; rw [ih]
        | (n+3) => simp only [a2bLoop, if_neg hpad, hv]; rw [ih]

example : b64decodeStr "QQ==" = Except.ok [65] := by decide
example : b64decodeStr "Qg==" = Except.ok [66] := by decide
example : b64decodeStr "@@@" = Except.ok [] := by decide
example : b64decodeStr "QQ" = Except.error "Incorrect padding" := by decide
example : b64encode [77, 97, 110] = "TWFu".data := by decide
example : b64decodeStr "TWFu" = Except.ok [77, 97, 110] := by decide

/-! ## Document model

A parsed document is a tree of elements (qualified tag, attribute dict in
insertion order, text immediately after the opening tag, children) and
comment nodes. `FileExtractor._parse_svg` produces the root node. -/

inductive Node where
  | element (tag : String) (attrs : List (String × String))
      (text : Option String) (children : List Node)
  | comment (text : String)

mutual
/-- Elements of a subtree (the subtree root included) carrying a
`data-filename` attribute, in document order. -/
def findallDFNode : Node → List Node
  | .comment _ => []
  | .element t a tx cs =>
    (if (alookup "data-filename" a).isSome then [Node.element t a tx cs] else [])
      ++ findallDFList cs
/-- `findallDFNode` over a forest. -/
def findallDFList : List Node → List Node
  | [] => []
  | n :: ns => findallDFNode n ++ findallDFList ns
end

/-- `root.findall(".//*[@data-filename]")`: descendant elements of the root
(root excluded) carrying a `data-filename` attribute, in document order. -/
def findallDF : Node → List Node
  | .element _ _ _ cs => findallDFList cs
  | .comment _ => []

mutual
/-- Texts of all comment nodes of a subtree, in document order
(`//comment()` on the parsed tree). -/
def commentsOfNode : Node → List String
  | .comment s => [s]
  | .element _ _ _ cs => commentsOfList cs
/-- `commentsOfNode` over a forest. -/
def commentsOfList : List Node → List String
  | [] => []
  | n :: ns => commentsOfNode n ++ commentsOfList ns
end

/-! ## `FileExtractor.extract_embedded_files`

The attribute pass (`file_extractor.py` lines 72-80) and the comment pass
(lines 83-93) each build a flat sequence of successfully decoded
`(filename, content)` items; both passes store items with
`embedded_files[filename] = content`, so a repeated filename replaces the
value recorded earlier while keeping its position.

The comment pass is written for an lxml tree (`self.root.xpath`); the
definitions here give it the evident comment-traversal semantics. The tree
actually built by `_parse_svg` is a stdlib `xml.etree` tree, whose elements
have no `xpath` method; `extract_embedded_files_run` below records what the
shipped code therefore does at run time. -/

/-- One attribute-pass item: an element from `findall(".//*[@data-filename]")`
also carrying `data-content` contributes its decoded content under
`data-filename` (default `unnamed.bin`); a decode failure is a warning and
the item is skipped. -/
def attrItemOf : Node → List (String × List Nat)
  | .element _ a _ _ =>
    match alookup "data-content" a with
    | none => []
    | some cb =>
      match b64decode cb.data with
      | .ok content => [(agetD "data-filename" a "unnamed.bin", content)]
      | .error _ => []
  | .comment _ => []

/-- All attribute-pass items of a document, in document order. -/
def attrItems (root : Node) : List (String × List Nat) :=
  cmap attrItemOf (findallDF root)

/-- One comment-pass item: the stripped comment text must start with
`FILE:`; it is split on the first newline into a filename line and a
payload; items whose payload fails to decode are skipped with a warning. -/
def commentItemOf (text : String) : List (String × List Nat) :=
  let t := pyStripCL text.data
  if "FILE:".data.isPrefixOf t then
    match splitFirst '\n' t with
    | some (l1, restPart) =>
      match b64decode (pyStripCL restPart) with
      | .ok content => [(⟨pyStripCL (l1.drop 5)⟩, content)]
      | .error _ => []
    | none => []
  else []

/-- All comment-pass items of a document, in document order. -/
def commentItems (root : Node) : List (String × List Nat) :=
  cmap commentItemOf (commentsOfNode root)

/-- The flat item sequence in the order the two passes record them:
attribute items first, then comment items. -/
def decodedItems (root : Node) : List (String × List Nat) :=
  attrItems root ++ commentItems root

/-- Python dict assignment `d[k] = v`: replace the value in place when the
key exists, otherwise append the new pair. -/
def dictInsert (d : List (String × α)) (k : String) (v : α) : List (String × α) :=
  if (alookup k d).isSome then
    d.map (fun p => if p.1 = k then (k, v) else p)
  else d ++ [(k, v)]

/-- `FileExtractor.extract_embedded_files` with the comment pass given its
intended comment-traversal semantics: record every decoded item into the
`embedded_files` dict in pass order. -/
def extract_embedded_files (root : Node) : List (String × List Nat) :=
  (decodedItems root).foldl (fun d kv => dictInsert d kv.1 kv.2) []

/-- `FileExtractor.extract_embedded_files` as the shipped code executes:
`_parse_svg` builds a stdlib `xml.etree` tree, whose root element has no
`xpath` attribute, so line 83 raises `AttributeError` on every input before
the comment pass can run; the handler at line 97 wraps it into `SVGGError`.
(The stdlib parser also discards comments, so no comment item could be
found even with a working traversal.) -/
def extract_embedded_files_run (_root : Node) :
    Except String (List (String × List Nat)) :=
  .error "Failed to extract embedded files: Element object has no attribute xpath"

theorem alookup_append_some (k : String) (l₁ l₂ : List (String × α)) (v : α)
    (h : alookup k l₁ = some v) : alookup k (l₁ ++ l₂) = some v := by
  induction l₁ with
  | nil => simp [alookup] at h
  | cons p rest ih =>
    obtain ⟨k₀, v₀⟩ := p
    by_cases hk : k = k₀
    · simpa [alookup, hk] using h
    · simp only [alookup, if_neg hk, List.cons_append] at h ⊢
      exact ih h

theorem alookup_append_none (k : String) (l₁ l₂ : List (String × α))
    (h : alookup k l₁ = none) : alookup k (l₁ ++ l₂) = alookup k l₂ := by
  induction l₁ with
  | nil => rfl
  | cons p rest ih =>
    obtain ⟨k₀, v₀⟩ := p
    by_cases hk : k = k₀
    · simp [alookup, hk] at h
    · simp only [alookup, if_neg hk, List.cons_append] at h ⊢
      exact ih h

theorem alookup_map_replace_eq (d : List (String × α)) (k : String) (v : α)
    (h : (alookup k d).isSome) :
    alookup k (d.map (fun p => if p.1 = k then (k, v) else p)) = some v := by
  induction d with
  | nil => simp [alookup] at h
  | cons p rest ih =>
    obtain ⟨k₀, v₀⟩ := p
    simp only [List.map_cons]
    by_cases hk : k₀ = k
    · rw [show (if ((k₀, v₀) : String × α).1 = k then (k, v) else (k₀, v₀)) = (k, v) from by
        simp [hk]]
      simp [alookup]
    · rw [show (if ((k₀, v₀) : String × α).1 = k then (k, v) else (k₀, v₀)) = (k₀, v₀) from by
        simp [hk]]
      have hk' : ¬ k = k₀ := fun hh => hk hh.symm
      have h' : (alookup k rest).isSome := by simpa [alookup, hk'] using h
      simp [alookup, hk', ih h']

theorem alookup_map_replace_ne (d : List (String × α)) (k k' : String) (v : α)
    (hne : k' ≠ k) :
    alookup k' (d.map (fun p => if p.1 = k then (k, v) else p)) = alookup k' d := by
  induction d with
  | nil => rfl
  | cons p rest ih =>
    obtain ⟨k₀, v₀⟩ := p
    simp only [List.map_cons]
    by_cases hk : k₀ = k
    · rw [show (if ((k₀, v₀) : String × α).1 = k then (k, v) else (k₀, v₀)) = (k, v) from by
        simp [hk]]
      have hne₀ : ¬ k' = k₀ := fun hh => hne (hh.trans hk)
      simp [alookup, hne, hne₀, ih]
    · rw [show (if ((k₀, v₀) : String × α).1 = k then (k, v) else (k₀, v₀)) = (k₀, v₀) from by
        simp [hk]]
      by_cases hk' : k' = k₀ <;> simp [alookup, hk', ih]

theorem alookup_dictInsert (d : List (String × α)) (k k' : String) (v : α) :
    alookup k' (dictInsert d k v) = if k' = k then some v else alookup k' d := by
  unfold dictInsert
  by_cases hp : (alookup k d).isSome
  · rw [if_pos hp]
    by_cases hk : k' = k
    · subst hk
      rw [if_pos rfl]
      exact alookup_map_replace_eq d k' v hp
    · rw [if_neg hk]
      exact alookup_map_replace_ne d k k' v hk
  · rw [if_neg hp]
    by_cases hk : k' = k
    · subst hk
      have hnone : alookup k' d = none := by
        cases hh : alookup k' d
        · rfl
        · rw [hh] at hp; simp at hp
      rw [alookup_append_none _ _ _ hnone, if_pos rfl]
      simp [alookup]
    · rw [if_neg hk]
      cases hh : alookup k' d with
      | some w => rw [alookup_append_some _ _ _ _ hh]
      | none =>
        rw [alookup_append_none _ _ _ hh]
        simp [alookup, hk]

theorem alookup_foldl_dictInsert :
    ∀ (items : List (String × α)) (d : List (String × α)) (k : String),
    alookup k (items.foldl (fun d kv => dictInsert d kv.1 kv.2) d) =
      (match alookup k items.reverse with
       | some v => some v
       | none => alookup k d) := by
  intro items
  induction items with
  | nil => intro d k; simp [alookup]
  | cons p rest ih =>
    intro d k
    obtain ⟨k₀, v₀⟩ := p
    simp only [List.foldl_cons, List.reverse_cons]
    rw [ih]
    cases hh : alookup k rest.reverse with
    | some v => rw [alookup_append_some _ _ _ _ hh]
    | none =>
      rw [alookup_append_none _ _ _ hh, alookup_dictInsert]
      by_cases hk : k = k₀ <;> simp [alookup, hk]

/-! ## `FileExtractor.extract_to_directory`

The directory is modelled as a map from file name to content; `mkdir` and
the `output_dir /` prefix are identity on this map (all names land in the
same directory). I/O primitives are assumed to succeed; the only failure is
the explicit `FileExistsError` raised when the target exists and
`overwrite` is false. -/

/-- A directory state: file name to content. -/
def FS := String → Option (List Nat)

/-- Writing a file. -/
def fsWrite (fs : FS) (p : String) (c : List Nat) : FS :=
  fun q => if q = p then some c else fs q

/-- `Path.unlink`. -/
def fsRemove (fs : FS) (p : String) : FS :=
  fun q => if q = p then none else fs q

/-- The write loop (lines 122-131): returns the raised error if any, the
directory state reached, and the paths completely written (the
`extracted_files` accumulator at that point). -/
def writeLoop : List (String × List Nat) → Bool → FS →
    Option String × FS × List String
  | [], _, fs => (none, fs, [])
  | (name, content) :: rest, overwrite, fs =>
    if (fs name).isSome && !overwrite then
      (some ("File " ++ name ++ " already exists and overwrite is False"), fs, [])
    else
      match writeLoop rest overwrite (fsWrite fs name content) with
      | (err, fs', paths) => (err, fs', name :: paths)

/-- `FileExtractor.extract_to_directory`: write every extracted file; on an
exception, unlink every completely written file (in the order written) and
re-raise as `SVGGError`. Returns the error or the list of written paths,
and the final directory state. -/
def extract_to_directory (root : Node) (overwrite : Bool) (fs : FS) :
    Except String (List String) × FS :=
  match writeLoop (extract_embedded_files root) overwrite fs with
  | (none, fs', paths) => (.ok paths, fs')
  | (some e, fs', paths) =>
    (.error ("Failed to extract files to directory: " ++ e), paths.foldl fsRemove fs')

/-! ## `SVGGenerator.embed` textual insertion (svg_generator.py lines 88-98)

After building the metadata script element, the source text is spliced: if
the literal `</svg>` occurs, every occurrence is replaced by the script
followed by `</svg>`; otherwise the script is appended at the end. No
branch raises. -/

/-- Python `pat in s` for strings. -/
def strContains (s pat : String) : Bool := containsCL s.data pat.data

/-- The splice step of `SVGGenerator.embed`. -/
def embed_splice (svg_content script_content : String) : String :=
  if strContains svg_content "</svg>" then
    svg_content.replace "</svg>" ("\n" ++ script_content ++ "\n</svg>")
  else
    svg_content ++ "\n" ++ script_content

/-! ## `SVGValidator` (svg_validator.py)

`validate` resets the issue lists, runs `validate_structure` then
`validate_elements`, and reports `is_valid` as "no errors". A validation
issue is a code, a message, and optional element / attribute names. -/

structure VIssue where
  code : String
  message : String
  element : Option String
  attrName : Option String
deriving DecidableEq

/-- Root tag (`self.root.tag`); parsed documents always have an element
root. -/
def rootTag : Node → String
  | .element t _ _ _ => t
  | .comment _ => ""

/-- Root attributes. -/
def rootAttrs : Node → List (String × String)
  | .element _ a _ _ => a
  | .comment _ => []

/-- Python `str.upper()` on ASCII text. -/
def pyUpper (s : String) : String :=
  ⟨s.data.map (fun c => if 'a' ≤ c && c ≤ 'z' then Char.ofNat (c.toNat - 32) else c)⟩

/-- `SVGValidator.validate_structure`: an `INVALID_ROOT` error unless the
root tag is exactly the namespaced `svg` tag, and a `MISSING_*` warning per
absent recommended attribute. Returns (errors, warnings). -/
def validate_structure (root : Node) : List VIssue × List VIssue :=
  let errs :=
    if rootTag root ≠ "{http://www.w3.org/2000/svg}svg" then
      [{ code := "INVALID_ROOT", message := "Root element must be an SVG element",
         element := some (rootTag root), attrName := none }]
    else []
  let warns := cmap (fun attr =>
      if (alookup attr (rootAttrs root)).isSome then []
      else [{ code := "MISSING_" ++ pyUpper attr,
              message := "SVG is missing recommended attribute: " ++ attr,
              element := some "svg", attrName := none }])
    ["width", "height", "viewBox"]
  (errs, warns)

/-- The `valid_elements` allow-list of `validate_elements`. -/
def valid_elements : List String :=
  ["svg", "g", "path", "rect", "circle", "ellipse", "line", "polyline",
   "polygon", "text", "tspan", "image", "use", "defs", "clipPath",
   "linearGradient", "radialGradient", "stop", "style", "script"]

/-- Namespace-stripped tag: `tag.split(sep)[-1] if sep in tag else tag`
with `sep` the closing brace (svg_validator.py line 104). -/
def localName (t : String) : String := ⟨afterLast '}' t.data⟩

/-- The comment-detection block of `validate_elements` (lines 107-115): a
text whose stripped form is bracketed by comment markers makes the code
append a synthetic `comment` element holding the stripped inner text, which
the ongoing iteration then also visits. Returns that inner text. -/
def textInnerQ : Option String → Option String
  | none => none
  | some s =>
    if !s.data.isEmpty && containsCL s.data "<!--".data then
      let t := pyStripCL s.data
      if "<!--".data.isPrefixOf t && "-->".data.isSuffixOf t then
        some ⟨pyStripCL ((t.drop 4).take ((t.drop 4).length - 3))⟩
      else none
    else none

theorem dropWhile_length_le (p : α → Bool) (l : List α) :
    (l.dropWhile p).length ≤ l.length := by
  induction l with
  | nil => simp
  | cons a rest ih =>
    by_cases h : p a
    · simp only [List.dropWhile_cons, h, if_true]
      exact Nat.le_trans ih (by simp)
    · simp [List.dropWhile_cons, h]

theorem isPrefixOf_length_le [BEq α] :
    ∀ (pre l : List α), pre.isPrefixOf l = true → pre.length ≤ l.length
  | [], _, _ => by simp
  | _ :: _, [], h => by simp [List.isPrefixOf] at h
  | a :: pre, b :: l, h => by
    simp only [List.isPrefixOf, Bool.and_eq_true] at h
    simpa using isPrefixOf_length_le pre l h.2

theorem pyStripCL_length_le (l : List Char) : (pyStripCL l).length ≤ l.length := by
  unfold pyStripCL
  calc ((l.dropWhile pyIsSpace).reverse.dropWhile pyIsSpace).reverse.length
      = ((l.dropWhile pyIsSpace).reverse.dropWhile pyIsSpace).length := by
        rw [List.length_reverse]
    _ ≤ (l.dropWhile pyIsSpace).reverse.length := dropWhile_length_le _ _
    _ = (l.dropWhile pyIsSpace).length := by rw [List.length_reverse]
    _ ≤ l.length := dropWhile_length_le _ _

theorem textInnerQ_length_lt (s : String) (inner : String)
    (h : textInnerQ (some s) = some inner) : inner.data.length < s.data.length := by
  simp only [textInnerQ] at h
  by_cases h₁ : (!s.data.isEmpty && containsCL s.data "<!--".data) = true
  · rw [if_pos h₁] at h
    by_cases h₂ : ("<!--".data.isPrefixOf (pyStripCL s.data)
        && "-->".data.isSuffixOf (pyStripCL s.data)) = true
    · rw [if_pos h₂] at h
      have h4 : 4 ≤ (pyStripCL s.data).length := by
        have := isPrefixOf_length_le "<!--".data (pyStripCL s.data)
          ((Bool.and_eq_true _ _).mp h₂).1
        simpa using this
      have hinner : inner.data =
          pyStripCL (((pyStripCL s.data).drop 4).take
            (((pyStripCL s.data).drop 4).length - 3)) := by
        have := congrArg String.data (Option.some.inj h)
        exact this.symm
      have hlen : inner.data.length ≤ ((pyStripCL s.data).drop 4).length := by
        rw [hinner]
        calc (pyStripCL (((pyStripCL s.data).drop 4).take
              (((pyStripCL s.data).drop 4).length - 3))).length
            ≤ (((pyStripCL s.data).drop 4).take
              (((pyStripCL s.data).drop 4).length - 3)).length := pyStripCL_length_le _
          _ ≤ ((pyStripCL s.data).drop 4).length := by
              rw [List.length_take]
              omega
      have hdrop : ((pyStripCL s.data).drop 4).length = (pyStripCL s.data).length - 4 := by
        rw [List.length_drop]
      have hstrip := pyStripCL_length_le s.data
      omega
    · rw [if_neg h₂] at h
      exact absurd h (by simp)
  · rw [if_neg h₁] at h
    exact absurd h (by simp)

/-- Chain of synthetic `comment` elements visited after an element whose
text qualifies (lines 107-115 run again on each appended element, whose
inner text is strictly shorter). -/
def commentChain (s : String) : List Node :=
  Node.element "comment" [] (some s) [] ::
    (match h : textInnerQ (some s) with
     | some inner => commentChain inner
     | none => [])
termination_by s.data.length
decreasing_by exact textInnerQ_length_lt s inner h

mutual
/-- The elements `validate_elements` visits below (and including) a node:
the node, then its children in order, then the synthetic `comment` element
its text may have appended (which the iteration also reaches). -/
def visitedElems : Node → List Node
  | .comment _ => []
  | .element t a tx cs =>
    Node.element t a tx cs ::
      (visitedList cs ++
        match textInnerQ tx with
        | some inner => commentChain inner
        | none => [])
/-- `visitedElems` over a forest. -/
def visitedList : List Node → List Node
  | [] => []
  | n :: ns => visitedElems n ++ visitedList ns
end

/-- Required attributes per element kind (svg_validator.py lines 143-149). -/
def required_attrs (tag : String) : List String :=
  if tag = "image" then ["xlink:href", "x", "y", "width", "height"]
  else if tag = "use" then ["xlink:href", "x", "y"]
  else if tag = "linearGradient" then ["id", "x1", "y1", "x2", "y2"]
  else if tag = "radialGradient" then ["id", "cx", "cy", "r", "fx", "fy"]
  else if tag = "stop" then ["offset", "stop-color"]
  else []

/-- `SVGValidator._is_valid_id`: nonempty, first character a letter or
underscore, remaining characters letters, digits, underscore, hyphen,
period or colon (the ASCII reading of the regex). -/
def is_valid_id (s : String) : Bool :=
  match s.data with
  | [] => false
  | c :: rest =>
    (c.isAlpha || c = '_') &&
      rest.all (fun d => d.isAlphanum || d = '_' || d = '-' || d = '.' || d = ':')

/-- `SVGValidator._validate_attributes`: `MISSING_ATTR` errors for absent
required attributes, then `INVALID_ID` errors for malformed `id` values. -/
def validate_attributes (attrs : List (String × String)) (tag : String) : List VIssue :=
  cmap (fun attr =>
      if (alookup attr attrs).isSome then []
      else [{ code := "MISSING_ATTR",
              message := "Required attribute \"" ++ attr ++ "\" is missing",
              element := some tag, attrName := some attr }])
    (required_attrs tag)
  ++ cmap (fun p =>
      if p.1 == "id" && !is_valid_id p.2 then
        [{ code := "INVALID_ID",
           message := "Invalid ID: \"" ++ p.2 ++ "\" (must start with a letter)",
           element := none, attrName := none }]
      else []) attrs

/-- Warning a visited element contributes: `UNKNOWN_ELEMENT` when its
namespace-stripped tag is outside the allow-list. -/
def elemWarn : Node → List VIssue
  | .element t _ _ _ =>
    if valid_elements.contains (localName t) then []
    else [{ code := "UNKNOWN_ELEMENT",
            message := "Element <" ++ localName t ++ "> is not a standard SVG element",
            element := some (localName t), attrName := none }]
  | .comment _ => []

/-- Errors a visited element contributes via `_validate_attributes`. -/
def elemErr : Node → List VIssue
  | .element t a _ _ => validate_attributes a (localName t)
  | .comment _ => []

/-- `SVGValidator.validate_elements`: issues of every visited element, in
visit order. Returns (errors, warnings). -/
def validate_elements (root : Node) : List VIssue × List VIssue :=
  (cmap elemErr (visitedElems root), cmap elemWarn (visitedElems root))

structure VResult where
  is_valid : Bool
  errors : List VIssue
  warnings : List VIssue
deriving DecidableEq

/-- `SVGValidator.validate`: reset, run `validate_structure` then
`validate_elements`, and report validity as absence of errors. -/
def validate (root : Node) : VResult :=
  { is_valid := ((validate_structure root).1 ++ (validate_elements root).1).isEmpty
    errors := (validate_structure root).1 ++ (validate_elements root).1
    warnings := (validate_structure root).2 ++ (validate_elements root).2 }

/-! ## `SVGLister.list_embedded_files` (svg_lister.py lines 50-94) -/

structure LItem where
  filename : String
  ftype : String
  size_bytes : Nat
  location : String
  element : String
deriving DecidableEq

/-- One attribute-pass listing record: approximate size is
`len(base64Text) * 3 // 4`. -/
def lItemOf : Node → List LItem
  | .element t a _ _ =>
    match alookup "data-content" a with
    | none => []
    | some cb =>
      [{ filename := agetD "data-filename" a "unnamed.bin",
         ftype := agetD "data-type" a "application/octet-stream",
         size_bytes := cb.length * 3 / 4,
         location := "metadata", element := t }]
  | .comment _ => []

/-- Attribute-pass listing records, in document order. -/
def attrRecords (root : Node) : List LItem :=
  cmap lItemOf (findallDF root)

mutual
/-- `SVGLister._find_comments`: texts of the synthetic comment elements the
lister builds from element texts bracketed by comment markers (it does not
rescan the elements it builds). -/
def findCommentsNode : Node → List String
  | .comment _ => []
  | .element _ _ tx cs =>
    (match textInnerQ tx with
     | some inner => [inner]
     | none => []) ++ findCommentsList cs
/-- `findCommentsNode` over a forest. -/
def findCommentsList : List Node → List String
  | [] => []
  | n :: ns => findCommentsNode n ++ findCommentsList ns
end

/-- One comment-pass listing record (index `i` from `enumerate`). -/
def lCommentItemOf (i : Nat) (text : String) : List LItem :=
  let t := pyStripCL text.data
  if "FILE:".data.isPrefixOf t then
    match splitFirst '\n' t with
    | some (l1, restPart) =>
      [{ filename := ⟨pyStripCL (l1.drop 5)⟩,
         ftype := "application/octet-stream",
         size_bytes := (pyStripCL restPart).length * 3 / 4,
         location := "comment_" ++ toString i, element := "comment" }]
    | none => []
  else []

/-- Comment-pass listing records. -/
def commentRecords (root : Node) : List LItem :=
  cmap (fun p => lCommentItemOf p.1 p.2) (findCommentsNode root).enum

/-- `SVGLister.list_embedded_files`. -/
def list_embedded_files (root : Node) : List LItem :=
  attrRecords root ++ commentRecords root

/-! ## `MetadataManager` (metadata_manager.py) -/

/-- One `embedded_files` record built by `add_file_metadata`. -/
structure FileRec where
  path : String
  mime_type : String
  size : Nat
  data_uri : Option String
deriving DecidableEq

/-- A metadata value: the `embedded_files` list or any other caller-supplied
value (represented by its repr string). -/
inductive MVal where
  | vlist (l : List FileRec)
  | vother (s : String)
deriving DecidableEq

/-- Whether a value is a Python list. -/
def MVal.isList : MVal → Bool
  | .vlist _ => true
  | .vother _ => false

/-- `MetadataManager.__init__`: take the caller metadata (or a fresh empty
dict when it is absent or empty, `metadata or {}`), then
`setdefault('embedded_files', [])`. -/
def mm_init (m : Option (List (String × MVal))) : List (String × MVal) :=
  if (alookup "embedded_files" (m.getD [])).isSome then m.getD []
  else m.getD [] ++ [("embedded_files", MVal.vlist [])]

/-- The `embedded_files` invariant: the key is present and bound to a list. -/
def mm_invariant (st : List (String × MVal)) : Bool :=
  match alookup "embedded_files" st with
  | some v => v.isList
  | none => false

/-- `MetadataManager.add_file_metadata`: build the record (`data_uri` only
when truthy, truncated to a 100-character preview) and append it to
`metadata['embedded_files']`; `none` models the `KeyError`/`AttributeError`
raised when the key is missing or not bound to a list. -/
def add_file_metadata (st : List (String × MVal)) (file_path mime_type : String)
    (size : Nat) (data_uri : Option String) : Option (List (String × MVal)) :=
  let fileRec : FileRec :=
    { path := file_path, mime_type := mime_type, size := size,
      data_uri := match data_uri with
        | some s => if s.isEmpty then none else some (s.take 100 ++ "...")
        | none => none }
  match alookup "embedded_files" st with
  | some (MVal.vlist l) =>
    some (st.map (fun p =>
      if p.1 = "embedded_files" then ("embedded_files", MVal.vlist (l ++ [fileRec])) else p))
  | some (MVal.vother _) => none
  | none => none

/-- `MetadataManager.clear`. -/
def mm_clear : List (String × MVal) := [("embedded_files", MVal.vlist [])]

/-! ## Claim theorems -/

/-- Membership in a `cmap` image. -/
theorem mem_cmap {f : α → List β} : ∀ {l : List α} {b : β},
    b ∈ cmap f l ↔ ∃ a ∈ l, b ∈ f a := by
  intro l
  induction l with
  | nil => simp [cmap]
  | cons a rest ih => intro b; simp [cmap, ih]

/-- C4: for every byte sequence, including the empty one, base64-decoding
the base64 encoding returns exactly the original bytes; encoding is a total
function on byte sequences. -/
theorem C4_base64_roundtrip (bs : List Nat) (h : ∀ x ∈ bs, x < 256) :
    b64decode (b64encode bs) = Except.ok bs :=
  b64_roundtrip bs h

theorem C4_base64_roundtrip_witness :
    (∀ x ∈ [0, 255, 10, 7], x < 256) ∧
      b64decode (b64encode [0, 255, 10, 7]) = Except.ok [0, 255, 10, 7] :=
  ⟨by decide, C4_base64_roundtrip [0, 255, 10, 7] (by decide)⟩

/-- C3 counterexample: the input `@@@` consists only of characters outside
the base64 alphabet, yet `base64.b64decode` (as called by
`FileHandler.decode_base64_to_file` and both extractor passes) succeeds and
returns the empty byte sequence instead of failing with a decode error. -/
theorem C3_decode_nonalphabet_counterexample :
    b64decodeStr "@@@" = Except.ok [] := by decide

/-- C3 amended: decoding ignores characters outside the base64 alphabet
(decoding a string equals decoding its alphabet-or-padding characters), so
such characters alone never cause a failure; decode fails only on a
leftover partial quad, as for `QQ`; during multi-item extraction an item
whose payload fails to decode is skipped while a well-formed item in the
same document is still recovered. -/
theorem C3_decode_discards_and_extraction_skips :
    (∀ s : List Char, b64decode (s.filter isB64Kept) = b64decode s) ∧
    b64decodeStr "QQ" = Except.error "Incorrect padding" ∧
    extract_embedded_files
      (Node.element "{http://www.w3.org/2000/svg}svg" [] none
        [Node.comment "FILE:bad.txt\nQQ", Node.comment "FILE:good.txt\nQg=="]) =
      [("good.txt", [66])] :=
  ⟨fun s => a2bLoop_filter s 0 0 0, by decide, by decide⟩

/-- C1 counterexample: a document with two attribute-encoded items both
named `a.txt` (contents `QQ==` = byte 65 and `Qg==` = byte 66): extraction
recovers the SECOND occurrence's content, not the first, because
`embedded_files[filename] = content` overwrites the earlier value. -/
theorem C1_first_wins_counterexample :
    extract_embedded_files
      (Node.element "{http://www.w3.org/2000/svg}svg" [] none
        [Node.element "file" [("data-filename", "a.txt"), ("data-content", "QQ==")] none [],
         Node.element "file" [("data-filename", "a.txt"), ("data-content", "Qg==")] none []]) =
      [("a.txt", [66])] ∧ ([66] : List Nat) ≠ [65] := by
  constructor
  · decide
  · decide

/-- C1 amended: over the fixed traversal order (attribute items in document
order, then comment items), a later item with an already-seen filename
silently OVERWRITES the earlier content (the mapping keeps the first
occurrence's position but the last occurrence's content): looking up any
name in the extraction result equals looking it up in the reversed item
sequence. -/
theorem C1_extract_last_wins (root : Node) (name : String) :
    alookup name (extract_embedded_files root) =
      alookup name (decodedItems root).reverse := by
  unfold extract_embedded_files
  rw [alookup_foldl_dictInsert]
  cases hh : alookup name (decodedItems root).reverse <;> simp [alookup]

/-- C2: on a document holding one attribute-encoded item `a.txt` and one
comment-encoded item `b.txt`, the comment pass as written (and as the spec
describes) recovers both items; but the shipped code parses with stdlib
`xml.etree`, whose elements have no `xpath` method, so the very same call
raises `SVGGError` instead of returning the mapping. -/
theorem C2_both_encodings_extracted :
    extract_embedded_files
      (Node.element "{http://www.w3.org/2000/svg}svg" [] none
        [Node.element "file" [("data-filename", "a.txt"), ("data-content", "QQ==")] none [],
         Node.comment "FILE:b.txt\nQg=="]) =
      [("a.txt", [65]), ("b.txt", [66])] ∧
    (extract_embedded_files_run
      (Node.element "{http://www.w3.org/2000/svg}svg" [] none
        [Node.element "file" [("data-filename", "a.txt"), ("data-content", "QQ==")] none [],
         Node.comment "FILE:b.txt\nQg=="])).isOk = false := by
  constructor
  · decide
  · decide

/-- C5 counterexample: on a source text without the literal `</svg>`, the
splice step of `SVGGenerator.embed` (lines 94-98) produces output by
appending the script element at the end of the text; no `StructureError`
(or any error) is raised, and `embed` goes on to write the file and report
success. -/
theorem C5_no_closing_tag_counterexample :
    embed_splice "<svg>" "<script id=\"svgg-metadata\"></script>" =
      "<svg>\n<script id=\"svgg-metadata\"></script>" := by decide

/-- C5 amended: whenever `</svg>` does not occur in the source text, the
insertion step appends a newline and the script element to the end of the
text and the operation continues normally (no failure path exists in the
splice). -/
theorem C5_embed_appends_without_closing_tag (s script : String)
    (h : strContains s "</svg>" = false) :
    embed_splice s script = s ++ "\n" ++ script := by
  unfold embed_splice
  rw [h]
  simp

theorem C5_embed_appends_without_closing_tag_witness :
    strContains "<svg><rect/>" "</svg>" = false ∧
      embed_splice "<svg><rect/>" "<script></script>" =
        "<svg><rect/>" ++ "\n" ++ "<script></script>" :=
  ⟨by decide, C5_embed_appends_without_closing_tag "<svg><rect/>" "<script></script>" (by decide)⟩

/-- Every issue `_validate_attributes` produces is a `MISSING_ATTR` or an
`INVALID_ID`. -/
theorem validate_attributes_codes (attrs : List (String × String)) (tag : String)
    (i : VIssue) (h : i ∈ validate_attributes attrs tag) :
    i.code = "MISSING_ATTR" ∨ i.code = "INVALID_ID" := by
  unfold validate_attributes at h
  rcases List.mem_append.mp h with h | h
  · rcases mem_cmap.mp h with ⟨attr, _, hi⟩
    by_cases hp : (alookup attr attrs).isSome
    · rw [if_pos hp] at hi
      simp at hi
    · rw [if_neg hp] at hi
      simp at hi
      left
      rw [hi]
  · rcases mem_cmap.mp h with ⟨p, _, hi⟩
    by_cases hp : (p.1 == "id" && !is_valid_id p.2) = true
    · rw [if_pos hp] at hi
      simp at hi
      right
      rw [hi]
    · rw [if_neg hp] at hi
      simp at hi

/-- `validate_elements` never reports an `INVALID_ROOT` error. -/
theorem validate_elements_no_invalid_root (root : Node) (i : VIssue)
    (h : i ∈ (validate_elements root).1) : i.code ≠ "INVALID_ROOT" := by
  unfold validate_elements at h
  rcases mem_cmap.mp h with ⟨n, _, hi⟩
  cases n with
  | element t a tx cs =>
    rcases validate_attributes_codes a (localName t) i hi with h' | h' <;>
      rw [h'] <;> decide
  | comment s => simp [elemErr] at hi

/-- C6: validating the minimal namespaced empty svg document (no width,
height or viewBox) yields validity, no errors, and exactly the three
warnings `MISSING_WIDTH`, `MISSING_HEIGHT`, `MISSING_VIEWBOX` in that
order; in general `is_valid` is exactly emptiness of the error list, so
warnings never affect validity. -/
theorem C6_validate_minimal_svg :
    (validate (Node.element "{http://www.w3.org/2000/svg}svg" [] none [])).is_valid = true ∧
    (validate (Node.element "{http://www.w3.org/2000/svg}svg" [] none [])).errors = [] ∧
    (validate (Node.element "{http://www.w3.org/2000/svg}svg" [] none [])).warnings.map
        (fun w => w.code) = ["MISSING_WIDTH", "MISSING_HEIGHT", "MISSING_VIEWBOX"] ∧
    ∀ d : Node, (validate d).is_valid = (validate d).errors.isEmpty :=
  ⟨by decide, by decide, by decide, fun _ => rfl⟩

/-- C7 counterexample: a document whose root tag is plain `svg` (no
namespace, as parsing `<svg></svg>` without an xmlns produces): its local
name is `svg`, yet `validate_structure` reports `INVALID_ROOT`, because
line 66 compares the full tag against the namespaced
`{http://www.w3.org/2000/svg}svg`, not the stripped local name. -/
theorem C7_unnamespaced_root_counterexample :
    localName (rootTag (Node.element "svg" [] none [])) = "svg" ∧
    ((validate (Node.element "svg" [] none [])).errors.any
        (fun i => i.code == "INVALID_ROOT")) = true ∧
    (validate (Node.element "svg" [] none [])).is_valid = false := by
  refine ⟨by decide, by decide, by decide⟩

/-- C7 amended: `validate` reports `INVALID_ROOT` exactly when the root tag
differs from the full namespaced string `{http://www.w3.org/2000/svg}svg`
(not merely when the local name differs from `svg`); in particular a
`notsvg` root is invalid with an `INVALID_ROOT` error. -/
theorem C7_invalid_root_iff_qualified_tag :
    (∀ (t : String) (a : List (String × String)) (tx : Option String) (cs : List Node),
      ((validate (Node.element t a tx cs)).errors.any
          (fun i => i.code == "INVALID_ROOT")) =
        !(t == "{http://www.w3.org/2000/svg}svg")) ∧
    (validate (Node.element "notsvg" [] none [])).is_valid = false ∧
    ((validate (Node.element "notsvg" [] none [])).errors.any
        (fun i => i.code == "INVALID_ROOT")) = true := by
  refine ⟨?_, by decide, by decide⟩
  intro t a tx cs
  show ((validate_structure (Node.element t a tx cs)).1 ++
      (validate_elements (Node.element t a tx cs)).1).any
      (fun i => i.code == "INVALID_ROOT") = _
  rw [List.any_append]
  have h2 : ((validate_elements (Node.element t a tx cs)).1.any
      (fun i => i.code == "INVALID_ROOT")) = false := by
    rw [List.any_eq_false]
    intro i hi
    have hne := validate_elements_no_invalid_root _ i hi
    simp [hne]
  rw [h2, Bool.or_false]
  unfold validate_structure
  by_cases ht : t = "{http://www.w3.org/2000/svg}svg"
  · simp [rootTag, ht]
  · simp [rootTag, ht]

/-- Comment-pass listing records always carry a `comment_<i>` location. -/
theorem comment_location_shape (root : Node) (r : LItem)
    (h : r ∈ commentRecords root) : ∃ i : Nat, r.location = "comment_" ++ toString i := by
  unfold commentRecords at h
  rcases mem_cmap.mp h with ⟨p, _, hi⟩
  unfold lCommentItemOf at hi
  by_cases hf : "FILE:".data.isPrefixOf (pyStripCL p.2.data)
  · rw [if_pos hf] at hi
    cases hsp : splitFirst '\n' (pyStripCL p.2.data) with
    | none => rw [hsp] at hi; simp at hi
    | some q =>
      obtain ⟨l1, restPart⟩ := q
      rw [hsp] at hi
      simp at hi
      exact ⟨p.1, by rw [hi]⟩
  · rw [if_neg hf] at hi
    simp at hi

/-- A `comment_<i>` location is never the attribute-pass `metadata`
location. -/
theorem comment_location_ne_metadata (x : String) :
    ("comment_" ++ x) ≠ "metadata" := by
  intro h
  have hd := congrArg String.data h
  rw [String.data_append] at hd
  rw [show ("comment_" : String).data = 'c' :: "omment_".data from rfl,
      show ("metadata" : String).data = 'm' :: "etadata".data from rfl] at hd
  simp at hd

/-- C8: every record the lister reports from the attribute encoding (the
`metadata` location) carries the documented approximate size
`len(base64Text) * 3 // 4` computed from its element's `data-content`
attribute value, not the exact decoded length. -/
theorem C8_listed_attr_size_formula (root : Node) (r : LItem)
    (hmem : r ∈ list_embedded_files root) (hloc : r.location = "metadata") :
    ∃ (t : String) (a : List (String × String)) (tx : Option String)
      (cs : List Node) (cb : String),
      Node.element t a tx cs ∈ findallDF root ∧
      alookup "data-content" a = some cb ∧
      r.size_bytes = cb.length * 3 / 4 ∧
      r.filename = agetD "data-filename" a "unnamed.bin" := by
  unfold list_embedded_files at hmem
  rcases List.mem_append.mp hmem with h | h
  · unfold attrRecords at h
    rcases mem_cmap.mp h with ⟨n, hn, hi⟩
    cases n with
    | comment s => simp [lItemOf] at hi
    | element t a tx cs =>
      cases hcb : alookup "data-content" a with
      | none =>
        simp only [lItemOf] at hi
        rw [hcb] at hi
        simp at hi
      | some cb =>
        simp only [lItemOf] at hi
        rw [hcb] at hi
        simp at hi
        exact ⟨t, a, tx, cs, cb, hn, hcb, by rw [hi], by rw [hi]⟩
  · exfalso
    rcases comment_location_shape root r h with ⟨i, hsh⟩
    rw [hloc] at hsh
    exact comment_location_ne_metadata (toString i) hsh.symm

theorem C8_listed_attr_size_formula_witness :
    (({ filename := "a.bin", ftype := "application/octet-stream",
        size_bytes := 3, location := "metadata", element := "file" } : LItem) ∈
      list_embedded_files (Node.element "{http://www.w3.org/2000/svg}svg" [] none
        [Node.element "file" [("data-filename", "a.bin"), ("data-content", "QQ==")] none []])) ∧
    (∃ (t : String) (a : List (String × String)) (tx : Option String)
      (cs : List Node) (cb : String),
      Node.element t a tx cs ∈ findallDF
        (Node.element "{http://www.w3.org/2000/svg}svg" [] none
          [Node.element "file" [("data-filename", "a.bin"), ("data-content", "QQ==")] none []]) ∧
      alookup "data-content" a = some cb ∧
      ({ filename := "a.bin", ftype := "application/octet-stream",
         size_bytes := 3, location := "metadata", element := "file" } : LItem).size_bytes =
        cb.length * 3 / 4 ∧
      ({ filename := "a.bin", ftype := "application/octet-stream",
         size_bytes := 3, location := "metadata", element := "file" } : LItem).filename =
        agetD "data-filename" a "unnamed.bin") :=
  ⟨by decide,
    C8_listed_attr_size_formula
      (Node.element "{http://www.w3.org/2000/svg}svg" [] none
        [Node.element "file" [("data-filename", "a.bin"), ("data-content", "QQ==")] none []])
      { filename := "a.bin", ftype := "application/octet-stream",
        size_bytes := 3, location := "metadata", element := "file" }
      (by decide) (by decide)⟩

/-- C9 counterexample: constructing a `MetadataManager` from a metadata
dict that binds `embedded_files` to a non-list leaves the key bound to
that non-list value, because `setdefault` only adds the key when absent;
the claimed invariant fails at construction. -/
theorem C9_init_nonlist_counterexample :
    mm_invariant (mm_init (some [("embedded_files", MVal.vother "not-a-list")])) = false := by
  decide

/-- C9 amended: the `embedded_files`-is-a-list invariant is established at
construction whenever the caller-supplied metadata does not already bind
`embedded_files` to a non-list value (in particular when the key is
absent), is preserved by `add_file_metadata` (which then always succeeds,
appending one record), and is re-established by `clear`. -/
theorem C9_invariant_maintained :
    (∀ m : Option (List (String × MVal)),
      (∀ v, alookup "embedded_files" (m.getD []) = some v → v.isList = true) →
      mm_invariant (mm_init m) = true) ∧
    (∀ (st : List (String × MVal)) (p mt : String) (sz : Nat) (du : Option String),
      mm_invariant st = true →
      ∃ st', add_file_metadata st p mt sz du = some st' ∧ mm_invariant st' = true) ∧
    mm_invariant mm_clear = true := by
  refine ⟨?_, ?_, by decide⟩
  · intro m hv
    unfold mm_init mm_invariant
    cases hh : alookup "embedded_files" (m.getD []) with
    | none =>
      simp only [Option.isSome_none, Bool.false_eq_true, if_false]
      rw [alookup_append_none _ _ _ hh]
      simp [alookup, MVal.isList]
    | some v =>
      simp only [Option.isSome_some, if_true]
      rw [hh]
      exact hv v hh
  · intro st p mt sz du hinv
    unfold mm_invariant at hinv
    cases hh : alookup "embedded_files" st with
    | none => rw [hh] at hinv; simp at hinv
    | some v =>
      rw [hh] at hinv
      cases v with
      | vother s => simp [MVal.isList] at hinv
      | vlist l =>
        unfold add_file_metadata
        rw [hh]
        refine ⟨_, rfl, ?_⟩
        unfold mm_invariant
        have hsome : (alookup "embedded_files" st).isSome := by rw [hh]; rfl
        rw [alookup_map_replace_eq st "embedded_files" _ hsome]
        rfl

theorem C9_invariant_maintained_witness :
    mm_invariant (mm_init (some [("title", MVal.vother "doc")])) = true ∧
    (∃ st', add_file_metadata mm_clear "f.txt" "text/plain" 3 none = some st' ∧
      mm_invariant st' = true) ∧
    mm_invariant mm_clear = true :=
  ⟨C9_invariant_maintained.1 (some [("title", MVal.vother "doc")])
      (by
        intro v hv
        have hn : alookup "embedded_files" [("title", MVal.vother "doc")] =
            (none : Option MVal) := by decide
        simp only [Option.getD] at hv
        rw [hn] at hv
        exact Option.noConfusion hv),
    C9_invariant_maintained.2.1 mm_clear "f.txt" "text/plain" 3 none (by decide),
    C9_invariant_maintained.2.2⟩

theorem fsRemove_apply (f : FS) (p q : String) :
    fsRemove f p q = if q = p then none else f q := rfl

theorem fsWrite_apply (f : FS) (p : String) (c : List Nat) (q : String) :
    fsWrite f p c q = if q = p then some c else f q := rfl

/-- Deleting two files commutes. -/
theorem fsRemove_comm (f : FS) (n p : String) :
    fsRemove (fsRemove f n) p = fsRemove (fsRemove f p) n := by
  funext q
  unfold fsRemove
  by_cases h1 : q = p <;> by_cases h2 : q = n <;> simp [h1, h2]

/-- A leading deletion can be postponed past a fold of deletions. -/
theorem foldl_fsRemove_out : ∀ (L : List String) (f : FS) (n : String),
    L.foldl fsRemove (fsRemove f n) = fsRemove (L.foldl fsRemove f) n := by
  intro L
  induction L with
  | nil => intro f n; rfl
  | cons p L ih =>
    intro f n
    simp only [List.foldl_cons]
    rw [fsRemove_comm f n p, ih]

/-- When the write loop fails with `overwrite = false`, unlinking the
completely written paths restores the directory exactly. -/
theorem writeLoop_rollback : ∀ (items : List (String × List Nat)) (fs : FS)
    (e : String) (fs' : FS) (paths : List String),
    writeLoop items false fs = (some e, fs', paths) →
    ∀ q, (paths.foldl fsRemove fs') q = fs q := by
  intro items
  induction items with
  | nil =>
    intro fs e fs' paths h q
    simp [writeLoop] at h
  | cons item rest ih =>
    intro fs e fs' paths h q
    obtain ⟨name, content⟩ := item
    by_cases hex : ((fs name).isSome && !false) = true
    · unfold writeLoop at h
      rw [if_pos hex] at h
      injection h with h1 h2
      injection h2 with h2 h3
      subst h2
      subst h3
      rfl
    · unfold writeLoop at h
      rw [if_neg hex] at h
      cases hw : writeLoop rest false (fsWrite fs name content) with
      | mk err rest' =>
        obtain ⟨fs₁, paths₁⟩ := rest'
        rw [hw] at h
        injection h with h1 h2
        injection h2 with h2 h3
        subst h1
        subst h2
        subst h3
        simp only [List.foldl_cons]
        rw [foldl_fsRemove_out, fsRemove_apply]
        have hfsname : fs name = none := by
          simp only [Bool.not_false, Bool.and_true] at hex
          cases hfn : fs name
          · rfl
          · rw [hfn] at hex; simp at hex
        by_cases hq : q = name
        · rw [if_pos hq, hq]
          exact hfsname.symm
        · rw [if_neg hq, ih (fsWrite fs name content) e fs₁ paths₁ hw q,
            fsWrite_apply, if_neg hq]

/-- C10: if extracting to a directory fails partway (in particular when a
target file already exists with `overwrite = false`), every file the call
had completely written is unlinked before the error is re-raised as
`SVGGError`, so the directory is exactly as before the call. -/
theorem C10_failed_extraction_rolls_back (root : Node) (fs : FS) (e : String)
    (h : (extract_to_directory root false fs).1 = Except.error e) :
    ∀ q, (extract_to_directory root false fs).2 q = fs q := by
  intro q
  unfold extract_to_directory at h ⊢
  cases hw : writeLoop (extract_embedded_files root) false fs with
  | mk err rest' =>
    obtain ⟨fs₁, paths₁⟩ := rest'
    rw [hw] at h
    cases err with
    | none => exact Except.noConfusion h
    | some e' =>
      show (paths₁.foldl fsRemove fs₁) q = fs q
      exact writeLoop_rollback _ fs e' fs₁ paths₁ hw q

theorem C10_failed_extraction_rolls_back_witness :
    (extract_to_directory
        (Node.element "{http://www.w3.org/2000/svg}svg" [] none
          [Node.element "file" [("data-filename", "b.txt"), ("data-content", "Qg==")] none [],
           Node.element "file" [("data-filename", "a.txt"), ("data-content", "QQ==")] none []])
        false
        (fun q => if q = "a.txt" then some [0] else none)).1 =
      Except.error
        "Failed to extract files to directory: File a.txt already exists and overwrite is False" ∧
    (extract_to_directory
        (Node.element "{http://www.w3.org/2000/svg}svg" [] none
          [Node.element "file" [("data-filename", "b.txt"), ("data-content", "Qg==")] none [],
           Node.element "file" [("data-filename", "a.txt"), ("data-content", "QQ==")] none []])
        false
        (fun q => if q = "a.txt" then some [0] else none)).2 "b.txt" = none :=
  ⟨by decide,
    (C10_failed_extraction_rolls_back
      (Node.element "{http://www.w3.org/2000/svg}svg" [] none
        [Node.element "file" [("data-filename", "b.txt"), ("data-content", "Qg==")] none [],
         Node.element "file" [("data-filename", "a.txt"), ("data-content", "QQ==")] none []])
      (fun q => if q = "a.txt" then some [0] else none)
      "Failed to extract files to directory: File a.txt already exists and overwrite is False"
      (by decide) "b.txt").trans (by decide)⟩
